import Mathlib

/-!
Verification development for the eth-api-payments analytics pipeline.

Part 1 embeds the raw-log event decoder of
src/analytics-dashboard/substream-integration/src/lib.rs.
Bytes are modelled as Fin 256; byte strings as List Byte; Rust machine
integers as Nat (the folds below never exceed the machine width they
model, as noted at each definition).
-/

abbrev Byte := Fin 256

namespace Integration

/-- Tracked escrow contract address (hex 6E5559e7Cf01860416ff9CbEcC3bbdC1f05dB3D0). -/
def ESCROW_CONTRACT_ADDRESS : List Byte :=
  [0x6e, 0x55, 0x59, 0xe7, 0xcf, 0x01, 0x86, 0x04, 0x16, 0xff, 0x9c, 0xbe, 0xcc, 0x3b, 0xbd, 0xc1, 0xf0, 0x5d, 0xb3, 0xd0]

/-- Keccak256 signature of UserDeposit(address,uint256). -/
def USER_DEPOSIT_EVENT_SIG : List Byte :=
  [0x9e, 0x71, 0xbc, 0x8e, 0xea, 0x02, 0xa6, 0x39, 0x69, 0xf5, 0x09, 0x81, 0x8f, 0x2d, 0xaf, 0xb9, 0x25, 0x45, 0x32, 0x90, 0x43, 0x19, 0xb9, 0xdb, 0xda, 0x79, 0xb6, 0x7b, 0xd5, 0xee, 0xd0, 0x06]

/-- Keccak256 signature of UserWithdraw(address,uint256). -/
def USER_WITHDRAW_EVENT_SIG : List Byte :=
  [0x88, 0x4e, 0xda, 0xd9, 0xce, 0x6f, 0xa2, 0x44, 0x0d, 0x8a, 0x54, 0xcc, 0x12, 0x34, 0x90, 0xeb, 0x96, 0xd2, 0x76, 0x84, 0x79, 0xd4, 0x9f, 0xf9, 0xc7, 0x36, 0x61, 0x25, 0xa9, 0x42, 0x43, 0x64]

/-- Keccak256 signature of ProviderWithdraw(address,uint256). -/
def PROVIDER_WITHDRAW_EVENT_SIG : List Byte :=
  [0x17, 0x04, 0x5c, 0xa4, 0x59, 0x7e, 0xe1, 0xa4, 0x6c, 0xda, 0xc7, 0x0b, 0xb5, 0xee, 0xcf, 0x48, 0xd4, 0xb0, 0x5e, 0xfb, 0xc0, 0xc3, 0xc2, 0xc5, 0x2f, 0x0e, 0x9e, 0x8b, 0x0e, 0x8c, 0x7c, 0x2f]

/-- Keccak256 signature of BatchPayment(address,address,uint256,uint256). -/
def BATCH_PAYMENT_EVENT_SIG : List Byte :=
  [0xf4, 0x75, 0x7a, 0x49, 0xb3, 0x26, 0x03, 0x64, 0x64, 0xbe, 0xc6, 0xfe, 0x41, 0x9a, 0x4a, 0xe3, 0x8c, 0x8e, 0x02, 0xce, 0x3e, 0x68, 0xbf, 0x08, 0x09, 0x67, 0x4f, 0x6a, 0xab, 0x8a, 0xd3, 0x00]

/-- Keccak256 signature of ZkVerifierUpdated(address,address). -/
def ZK_VERIFIER_UPDATED_EVENT_SIG : List Byte :=
  [0xbf, 0x9b, 0x5b, 0x2e, 0x8c, 0x6c, 0x7e, 0x3a, 0x5d, 0x4c, 0x0b, 0x3e, 0x6f, 0x2a, 0x7b, 0x8c, 0x9d, 0x0e, 0x1f, 0x2a, 0x3b, 0x4c, 0x5d, 0x6e, 0x7f, 0x8a, 0x9b, 0x0c, 0x1d, 0x2e, 0x3f, 0x4a]

/-- One raw log record: emitting address, 32-byte topics, opaque data payload
(the fields of eth::Log that the decoder reads). -/
structure Log where
  address : List Byte
  topics : List (List Byte)
  data : List Byte
  deriving Repr, DecidableEq

/-- The block fields the decoder reads: number and header timestamp seconds. -/
structure Block where
  number : Nat
  timestamp : Nat
  deriving Repr, DecidableEq

/-- The decoded escrow event (pb::eth::escrow::v1::EscrowEvent), all fields. -/
structure EscrowEvent where
  event_type : String
  user_address : String
  provider_address : String
  amount_cents : String
  num_calls : Nat
  old_verifier : String
  new_verifier : String
  transaction_hash : String
  block_number : Nat
  timestamp : Nat
  contract_address : String
  gas_used : Nat
  gas_price : String
  deriving Repr, DecidableEq

/-- Lowercase hex digit for a value below 16, as produced by Hex::encode. -/
def hexDigit (n : Nat) : Char :=
  if n < 10 then Char.ofNat (48 + n) else Char.ofNat (87 + n)

/-- Two lowercase hex digits of one byte. -/
def hexByte (b : Byte) : String :=
  String.mk [hexDigit (b.val / 16), hexDigit (b.val % 16)]

/-- Model of Hex::encode: lowercase hex, no marker. -/
def hexEncode (bs : List Byte) : String :=
  String.join (bs.map hexByte)

/-- extract_address_from_topic: when the topic has at least 32 bytes, take
bytes 12..32 (the last 20 of the 32-byte slot) and hex-encode them behind a
0x marker; otherwise return the empty string. -/
def extract_address_from_topic (topic : List Byte) : String :=
  if 32 ≤ topic.length then
    "0x" ++ hexEncode ((topic.drop 12).take 20)
  else
    ""

/-- extract_uint256_from_data: when the data payload holds a full 32-byte slot
at the offset, fold the LAST 16 bytes of that slot into a u128 accumulator
(result = (result shl 8) or byte; the or equals addition because each byte is
below 256, and 16 byte shifts starting from 0 never exceed 2^128, so no
reduction mod 2^128 is needed) and render it in decimal; otherwise return
the string 0. The first 16 bytes of the slot are discarded by the source. -/
def extract_uint256_from_data (data : List Byte) (offset : Nat) : String :=
  if offset + 32 ≤ data.length then
    let value_bytes := (data.drop offset).take 32
    toString ((value_bytes.drop 16).foldl (fun r b => r * 256 + b.val) 0)
  else
    "0"

/-- extract_uint256_from_data_as_u64: same shape but folds only the last 8
bytes of the slot into a u64 accumulator; 8 byte shifts from 0 stay below
2^64 so no reduction mod 2^64 is needed. -/
def extract_uint256_from_data_as_u64 (data : List Byte) (offset : Nat) : Nat :=
  if offset + 32 ≤ data.length then
    let value_bytes := (data.drop offset).take 32
    (value_bytes.drop 24).foldl (fun r b => r * 256 + b.val) 0
  else
    0

/-- Modelled from the spec (full-width rule of section 4.1, stated for
comparison with the source decoder): the full 32-byte big-endian unsigned
integer occupying the slot at the offset, losslessly. -/
def spec_full_uint256 (data : List Byte) (offset : Nat) : Nat :=
  ((data.drop offset).take 32).foldl (fun r b => r * 256 + b.val) 0

/-- parse_user_deposit_event: requires at least 2 topics, then builds the
event from topic 1 (user) and the first 32-byte data slot (amount). -/
def parse_user_deposit_event (log : Log) (tx_hash : String) (blk : Block) :
    Option EscrowEvent :=
  if log.topics.length < 2 then none
  else some
    { event_type := "UserDeposit"
      user_address := extract_address_from_topic (log.topics.getD 1 [])
      provider_address := ""
      amount_cents := extract_uint256_from_data log.data 0
      num_calls := 0
      old_verifier := ""
      new_verifier := ""
      transaction_hash := tx_hash
      block_number := blk.number
      timestamp := blk.timestamp
      contract_address := hexEncode log.address
      gas_used := 0
      gas_price := "0" }

/-- parse_user_withdraw_event: requires at least 2 topics. -/
def parse_user_withdraw_event (log : Log) (tx_hash : String) (blk : Block) :
    Option EscrowEvent :=
  if log.topics.length < 2 then none
  else some
    { event_type := "UserWithdraw"
      user_address := extract_address_from_topic (log.topics.getD 1 [])
      provider_address := ""
      amount_cents := extract_uint256_from_data log.data 0
      num_calls := 0
      old_verifier := ""
      new_verifier := ""
      transaction_hash := tx_hash
      block_number := blk.number
      timestamp := blk.timestamp
      contract_address := hexEncode log.address
      gas_used := 0
      gas_price := "0" }

/-- parse_provider_withdraw_event: requires at least 2 topics. -/
def parse_provider_withdraw_event (log : Log) (tx_hash : String) (blk : Block) :
    Option EscrowEvent :=
  if log.topics.length < 2 then none
  else some
    { event_type := "ProviderWithdraw"
      user_address := ""
      provider_address := extract_address_from_topic (log.topics.getD 1 [])
      amount_cents := extract_uint256_from_data log.data 0
      num_calls := 0
      old_verifier := ""
      new_verifier := ""
      transaction_hash := tx_hash
      block_number := blk.number
      timestamp := blk.timestamp
      contract_address := hexEncode log.address
      gas_used := 0
      gas_price := "0" }

/-- parse_batch_payment_event: requires at least 3 topics; amount from data
slot 0, num_calls from data slot 32 as u64. -/
def parse_batch_payment_event (log : Log) (tx_hash : String) (blk : Block) :
    Option EscrowEvent :=
  if log.topics.length < 3 then none
  else some
    { event_type := "BatchPayment"
      user_address := extract_address_from_topic (log.topics.getD 1 [])
      provider_address := extract_address_from_topic (log.topics.getD 2 [])
      amount_cents := extract_uint256_from_data log.data 0
      num_calls := extract_uint256_from_data_as_u64 log.data 32
      old_verifier := ""
      new_verifier := ""
      transaction_hash := tx_hash
      block_number := blk.number
      timestamp := blk.timestamp
      contract_address := hexEncode log.address
      gas_used := 0
      gas_price := "0" }

/-- parse_zk_verifier_updated_event: requires at least 3 topics. -/
def parse_zk_verifier_updated_event (log : Log) (tx_hash : String) (blk : Block) :
    Option EscrowEvent :=
  if log.topics.length < 3 then none
  else some
    { event_type := "ZkVerifierUpdated"
      user_address := ""
      provider_address := ""
      amount_cents := "0"
      num_calls := 0
      old_verifier := extract_address_from_topic (log.topics.getD 1 [])
      new_verifier := extract_address_from_topic (log.topics.getD 2 [])
      transaction_hash := tx_hash
      block_number := blk.number
      timestamp := blk.timestamp
      contract_address := hexEncode log.address
      gas_used := 0
      gas_price := "0" }

/-- The per-log body of map_escrow_events: skip logs from other contracts,
skip logs without topics, dispatch on topic 0 against the signature table,
and hand recognized logs to their parse function; everything else yields
none (the source loop pushes the event only when the parse returns Some). -/
def decode_log (log : Log) (tx_hash : String) (blk : Block) : Option EscrowEvent :=
  if log.address ≠ ESCROW_CONTRACT_ADDRESS then none
  else if log.topics.isEmpty then none
  else
    let topic0 := log.topics.getD 0 []
    if topic0 = USER_DEPOSIT_EVENT_SIG then
      parse_user_deposit_event log tx_hash blk
    else if topic0 = USER_WITHDRAW_EVENT_SIG then
      parse_user_withdraw_event log tx_hash blk
    else if topic0 = PROVIDER_WITHDRAW_EVENT_SIG then
      parse_provider_withdraw_event log tx_hash blk
    else if topic0 = BATCH_PAYMENT_EVENT_SIG then
      parse_batch_payment_event log tx_hash blk
    else if topic0 = ZK_VERIFIER_UPDATED_EVENT_SIG then
      parse_zk_verifier_updated_event log tx_hash blk
    else none

end Integration

/-!
Part 2 embeds the analytics passes of
src/analytics-dashboard/substreams/analytics_substream/src/lib.rs and
src/analytics-dashboard/substreams/analytics_substream/src/analytics.rs.
Amount strings stay strings (the proto carries them as decimal strings);
exact BigDecimal arithmetic on the nonnegative integer amounts this
pipeline produces is modelled over Nat, derived ratios over Rat.
HashSet and HashMap are modelled as insertion-ordered lists keyed by
decidable equality: the source reads only membership, lengths, lookups
and iteration, and where iteration order matters (map_network_metrics)
the model fixes first-insertion order, one realizable order of the
arbitrary Rust HashMap order, noted at that definition.
-/

namespace Analytics

/-- contract::EscrowBatchPayment, the fields the analytics passes read. -/
structure EscrowBatchPayment where
  evt_tx_hash : String
  evt_index : Nat
  evt_block_time : Option Nat
  evt_block_number : Nat
  amount : String
  num_calls : String
  provider : List Byte
  user : List Byte
  deriving Repr, DecidableEq

/-- contract::EscrowUserDeposit. -/
structure EscrowUserDeposit where
  evt_tx_hash : String
  evt_index : Nat
  evt_block_time : Option Nat
  evt_block_number : Nat
  amount : String
  user : List Byte
  deriving Repr, DecidableEq

/-- contract::EscrowUserWithdraw. -/
structure EscrowUserWithdraw where
  evt_tx_hash : String
  evt_index : Nat
  evt_block_time : Option Nat
  evt_block_number : Nat
  amount : String
  user : List Byte
  deriving Repr, DecidableEq

/-- contract::EscrowProviderWithdraw. -/
structure EscrowProviderWithdraw where
  evt_tx_hash : String
  evt_index : Nat
  evt_block_time : Option Nat
  evt_block_number : Nat
  amount : String
  provider : List Byte
  deriving Repr, DecidableEq

/-- contract::Events, restricted to the four event lists the analytics
passes read (the paused, ownership and verifier lists are never consumed
by the aggregators under verification). -/
structure Events where
  escrow_batch_payments : List EscrowBatchPayment
  escrow_user_deposits : List EscrowUserDeposit
  escrow_user_withdraws : List EscrowUserWithdraw
  escrow_provider_withdraws : List EscrowProviderWithdraw
  deriving Repr, DecidableEq

/-- Model of BigDecimal::from_str and str::parse on the value domain this
pipeline produces: every amount string is the decimal rendering of a
nonnegative integer (U256 to_string upstream), so the model accepts
exactly nonempty all-digit strings and anything else is a parse failure. -/
def parseDec (s : String) : Option Nat :=
  if s.data = [] then none
  else if s.data.all Char.isDigit then
    some (s.data.foldl (fun n c => 10 * n + (c.toNat - 48)) 0)
  else none

/-- Model of str::parse::<u64>: decimal parse that also fails on overflow
past the u64 range. -/
def parseU64 (s : String) : Option Nat :=
  match parseDec s with
  | some n => if n < 2 ^ 64 then some n else none
  | none => none

/-- Model of HashSet::insert and of the membership-guarded Vec push: append
the element unless already present. Only cardinality and membership are
read downstream, which insertion order does not affect. -/
def insertNew {α : Type} [DecidableEq α] (l : List α) (a : α) : List α :=
  if a ∈ l then l else l ++ [a]

/-- Model of HashMap entry(k).or_default() followed by a mutation f: update
the existing entry in place, or append a fresh entry made from the default d. -/
def upsert {α β : Type} [DecidableEq α] (m : List (α × β)) (k : α) (d : β)
    (f : β → β) : List (α × β) :=
  match m with
  | [] => [(k, f d)]
  | (k2, v) :: rest =>
      if k2 = k then (k2, f v) :: rest else (k2, v) :: upsert rest k d f

/-- Accumulator of the batch-payment loop of calculate_analytics. -/
structure PAState where
  total_volume : Nat
  users : List (List Byte)
  providers : List (List Byte)
  payment_count : Nat
  deriving Repr, DecidableEq

/-- The batch-payment loop body of calculate_analytics: everything happens
inside the if-let on the amount parse, in source order (volume, user set,
provider set, count). -/
def paStep (s : PAState) (p : EscrowBatchPayment) : PAState :=
  match parseDec p.amount with
  | some a =>
      { total_volume := s.total_volume + a
        users := insertNew s.users p.user
        providers := insertNew s.providers p.provider
        payment_count := s.payment_count + 1 }
  | none => s

/-- Result record of calculate_analytics (analytics.rs PaymentAnalytics);
the exact BigDecimal sum is a Nat, the derived average a Rat. -/
structure PaymentAnalyticsResult where
  total_volume : Nat
  unique_users : Nat
  unique_providers : Nat
  avg_payment_size : Rat
  payment_frequency : Nat
  deriving Repr, DecidableEq

/-- calculate_analytics from analytics.rs: fold the payment loop, then add
every deposit user to the user set, then derive the average with the
division-by-zero guard. -/
def calculate_analytics (events : Events) : PaymentAnalyticsResult :=
  let s := events.escrow_batch_payments.foldl paStep
    { total_volume := 0, users := [], providers := [], payment_count := 0 }
  let users := events.escrow_user_deposits.foldl
    (fun us d => insertNew us d.user) s.users
  let avg : Rat :=
    if s.payment_count > 0 then (s.total_volume : Rat) / (s.payment_count : Rat)
    else 0
  { total_volume := s.total_volume
    unique_users := users.length
    unique_providers := s.providers.length
    avg_payment_size := avg
    payment_frequency := s.payment_count }

/-- Accumulator of the batch-payment loop of map_payment_analytics in
lib.rs, where total_volume is kept as a string. -/
structure MPAState where
  total_volume : String
  users : List (List Byte)
  providers : List (List Byte)
  payment_count : Nat
  deriving Repr, DecidableEq

/-- The batch-payment loop body of map_payment_analytics: unconditionally
insert user and provider and bump the count, and set total_volume to this
payment amount only while it still reads "0" (the source comment says: for
simplicity, just use the first payment amount as total). -/
def mpaStep (s : MPAState) (p : EscrowBatchPayment) : MPAState :=
  { total_volume := if s.total_volume = "0" then p.amount else s.total_volume
    users := insertNew s.users p.user
    providers := insertNew s.providers p.provider
    payment_count := s.payment_count + 1 }

/-- analytics::PaymentAnalytics proto produced by map_payment_analytics. -/
structure PaymentAnalyticsProto where
  total_volume : String
  unique_users : Nat
  unique_providers : Nat
  avg_payment_size : String
  payment_frequency : Nat
  block_number : Nat
  timestamp : Option Nat
  deriving Repr, DecidableEq

/-- map_payment_analytics from the analytics_substream lib.rs. -/
def map_payment_analytics (events : Events) : PaymentAnalyticsProto :=
  let s := events.escrow_batch_payments.foldl mpaStep
    { total_volume := "0", users := [], providers := [], payment_count := 0 }
  let users := events.escrow_user_deposits.foldl
    (fun us d => insertNew us d.user) s.users
  { total_volume := s.total_volume
    unique_users := users.length
    unique_providers := s.providers.length
    avg_payment_size := if s.payment_count > 0 then s.total_volume else "0"
    payment_frequency := s.payment_count
    block_number := 0
    timestamp := none }

/-- ProviderMetrics accumulator of analyze_provider_performance; the fields
the source never writes in this pass (unique_users, growth_rate) are kept
at their defaults. The or_default entry is all zeroes. -/
structure ProviderMetricsM where
  provider_address : List Byte := []
  total_earnings : Nat := 0
  total_withdrawals : Nat := 0
  unique_users : Nat := 0
  total_api_calls : Nat := 0
  avg_call_value : Rat := 0
  reliability_score : Rat := 0
  growth_rate : Rat := 0
  deriving Repr, DecidableEq

/-- The batch-payment loop body of analyze_provider_performance: upsert the
provider entry, stamp the address, and when the amount parses add it to the
earnings; when the call count also parses as u64, add it to the api-call
total and set avg_call_value to amount over calls for this contribution.
(The source divides BigDecimals without guarding calls = 0, which would
panic there; the model uses total Rat division, where x / 0 = 0.) -/
def providerPayStep (m : List (List Byte × ProviderMetricsM))
    (p : EscrowBatchPayment) : List (List Byte × ProviderMetricsM) :=
  upsert m p.provider {} (fun mt =>
    let mt := { mt with provider_address := p.provider }
    match parseDec p.amount with
    | some a =>
        let mt := { mt with total_earnings := mt.total_earnings + a }
        match parseU64 p.num_calls with
        | some calls =>
            { mt with total_api_calls := mt.total_api_calls + calls
                      avg_call_value := (a : Rat) / (calls : Rat) }
        | none => mt
    | none => mt)

/-- The provider-withdrawal loop body: upsert and, when the amount parses,
add it to the withdrawal total. -/
def providerWithdrawStep (m : List (List Byte × ProviderMetricsM))
    (w : EscrowProviderWithdraw) : List (List Byte × ProviderMetricsM) :=
  upsert m w.provider {} (fun mt =>
    match parseDec w.amount with
    | some a => { mt with total_withdrawals := mt.total_withdrawals + a }
    | none => mt)

/-- The final scoring pass of analyze_provider_performance: for entries with
positive withdrawals, reliability_score becomes the earnings over
withdrawals ratio capped at one; other entries are left untouched. -/
def scoreProvider (mt : ProviderMetricsM) : ProviderMetricsM :=
  if mt.total_withdrawals > 0 then
    let ratio : Rat := (mt.total_earnings : Rat) / (mt.total_withdrawals : Rat)
    { mt with reliability_score := min ratio 1 }
  else mt

/-- analyze_provider_performance from analytics.rs: payments, then provider
withdrawals, then the in-place scoring pass over every entry. -/
def analyze_provider_performance (events : Events) :
    List (List Byte × ProviderMetricsM) :=
  let m := events.escrow_batch_payments.foldl providerPayStep []
  let m := events.escrow_provider_withdraws.foldl providerWithdrawStep m
  m.map (fun kv => (kv.1, scoreProvider kv.2))

/-- analytics::UserProviderEdge produced by map_network_metrics;
relationship_strength is the f64 count over ten, modelled as the exact Rat. -/
structure UserProviderEdge where
  user_address : List Byte
  provider_address : List Byte
  total_volume : String
  transaction_count : Nat
  relationship_strength : Rat
  deriving Repr, DecidableEq

/-- analytics::NetworkMetrics; network_density is the f64 ratio, modelled
as the exact Rat. -/
structure NetworkMetrics where
  total_unique_users : Nat
  total_unique_providers : Nat
  active_user_provider_pairs : Nat
  network_density : Rat
  top_connections : List UserProviderEdge
  total_network_volume : String
  deriving Repr, DecidableEq

/-- Accumulator of the batch-payment loop of map_network_metrics. -/
structure NMState where
  users : List (List Byte)
  providers : List (List Byte)
  connections : List ((List Byte × List Byte) × Nat)
  total_volume : String
  deriving Repr, DecidableEq

/-- The batch-payment loop body of map_network_metrics: insert user and
provider, bump the (user, provider) connection count from a default of 0,
and keep the first amount that displaces the initial "0" as total volume. -/
def nmStep (s : NMState) (p : EscrowBatchPayment) : NMState :=
  { users := insertNew s.users p.user
    providers := insertNew s.providers p.provider
    connections := upsert s.connections (p.user, p.provider) 0 (· + 1)
    total_volume := if s.total_volume = "0" then p.amount else s.total_volume }

/-- map_network_metrics from the analytics_substream lib.rs. The source
iterates connections.iter().take(5) over a HashMap whose iteration order is
arbitrary; the model fixes first-insertion order, which is one realizable
order — under no order does take 5 select by weight. -/
def map_network_metrics (events : Events) : NetworkMetrics :=
  let s := events.escrow_batch_payments.foldl nmStep
    { users := [], providers := [], connections := [], total_volume := "0" }
  let users := events.escrow_user_deposits.foldl
    (fun us d => insertNew us d.user) s.users
  let total_users := users.length
  let total_providers := s.providers.length
  let active_pairs := s.connections.length
  let max_possible := total_users * total_providers
  let density : Rat :=
    if max_possible > 0 then (active_pairs : Rat) / (max_possible : Rat) else 0
  { total_unique_users := total_users
    total_unique_providers := total_providers
    active_user_provider_pairs := active_pairs
    network_density := density
    top_connections := (s.connections.take 5).map (fun kv =>
      { user_address := kv.1.1
        provider_address := kv.1.2
        total_volume := "0"
        transaction_count := kv.2
        relationship_strength := (kv.2 : Rat) / 10 })
    total_network_volume := s.total_volume }

/-- The parsed payment magnitudes detect_anomalies works over (the source
parses each amount as a BigDecimal and converts to f64; the model keeps the
exact rational value of the same nonnegative integer amounts). -/
def anomalyAmounts (events : Events) : List Rat :=
  events.escrow_batch_payments.filterMap
    (fun p => (parseDec p.amount).map (fun a => (a : Rat)))

/-- Mean of the parsed magnitudes. -/
def anomalyMean (events : Events) : Rat :=
  (anomalyAmounts events).sum / ((anomalyAmounts events).length : Rat)

/-- Population variance of the parsed magnitudes (mean of squared
deviations), the square of the sigma the source takes a square root of. -/
def anomalyVariance (events : Events) : Rat :=
  ((anomalyAmounts events).map
    (fun x => (x - anomalyMean events) ^ 2)).sum /
    ((anomalyAmounts events).length : Rat)

/-- The three-sigma test of detect_anomalies on one parsed magnitude x:
the source flags x when x exceeds mean plus three times the square root of
the variance; since that square root is nonnegative, this holds exactly
when x exceeds the mean and the squared deviation exceeds nine times the
variance, which keeps the test inside Rat. The equivalence with the square
root form over the reals is the theorem threeSigma_iff_sqrt below. -/
def threeSigmaFlag (mean variance x : Rat) : Bool :=
  mean < x ∧ 9 * variance < (x - mean) ^ 2

/-- detect_anomalies from analytics.rs: with a nonempty magnitude list,
compute mean and variance and keep every payment whose parsed magnitude
exceeds the three-sigma threshold; an empty magnitude list yields no
anomalies. The source renders each flagged payment as a message string;
the model returns the flagged payments themselves, one per message. -/
def detect_anomalies (events : Events) : List EscrowBatchPayment :=
  let amounts := anomalyAmounts events
  if amounts = [] then []
  else
    events.escrow_batch_payments.filter (fun p =>
      match parseDec p.amount with
      | some a => threeSigmaFlag (anomalyMean events) (anomalyVariance events) (a : Rat)
      | none => false)

/-- analytics::AnomalyAlert produced by map_anomaly_detection; the f64
severity is modelled as the exact Rat. -/
structure AnomalyAlert where
  anomaly_type : String
  description : String
  user_address : List Byte
  provider_address : List Byte
  transaction_hash : String
  severity_score : Rat
  detected_at : Option Nat
  block_number : Nat
  deriving Repr, DecidableEq

/-- The large-payment test of map_anomaly_detection: the amount parses as a
number strictly above one million (the source parses as f64; every amount
at stake is an integer rendered exactly, so the Nat comparison coincides). -/
def isLargePayment (p : EscrowBatchPayment) : Bool :=
  match parseDec p.amount with
  | some a => 1000000 < a
  | none => false

/-- The alert map_anomaly_detection returns for the flagged payment. -/
def largeAlert (p : EscrowBatchPayment) : AnomalyAlert :=
  { anomaly_type := "large_payment"
    description := "Large payment detected: " ++ p.amount
    user_address := p.user
    provider_address := p.provider
    transaction_hash := p.evt_tx_hash
    severity_score := 4 / 5
    detected_at := p.evt_block_time
    block_number := p.evt_block_number }

/-- The alert map_anomaly_detection returns when no payment is flagged. -/
def noneAlert : AnomalyAlert :=
  { anomaly_type := "none"
    description := "No anomalies detected"
    user_address := []
    provider_address := []
    transaction_hash := ""
    severity_score := 0
    detected_at := none
    block_number := 0 }

/-- The payment loop of map_anomaly_detection: return on the first payment
whose amount parses above one million, fall through to the no-anomaly alert. -/
def anomalyLoop : List EscrowBatchPayment → AnomalyAlert
  | [] => noneAlert
  | p :: ps => if isLargePayment p then largeAlert p else anomalyLoop ps

/-- map_anomaly_detection from the analytics_substream lib.rs. -/
def map_anomaly_detection (events : Events) : AnomalyAlert :=
  anomalyLoop events.escrow_batch_payments

end Analytics

/-!
Part 3: concrete fixtures used by the theorems below — batches, logs and
expected outputs on which the claims are settled, plus the duplicated-batch
construction for the idempotence claim.
-/

open Integration Analytics

/-- The duplicated delivery of a batch: every event appears twice (same
transaction hash and log index). -/
def dupBatch (events : Events) : Events :=
  { escrow_batch_payments := events.escrow_batch_payments ++ events.escrow_batch_payments
    escrow_user_deposits := events.escrow_user_deposits ++ events.escrow_user_deposits
    escrow_user_withdraws := events.escrow_user_withdraws ++ events.escrow_user_withdraws
    escrow_provider_withdraws := events.escrow_provider_withdraws ++ events.escrow_provider_withdraws }

/-- Number of batch payments between one fixed (user, provider) pair. -/
def countPair (l : List EscrowBatchPayment) (pr : List Byte × List Byte) : Nat :=
  (l.filter (fun p => (p.user, p.provider) = pr)).length

/-- A 32-byte data slot holding the big-endian value 2^128: byte 15 is one,
all other bytes are zero, so the full value sits entirely in the HIGH half
the source discards. -/
def d128 : List Byte :=
  List.replicate 15 (0 : Byte) ++ [1] ++ List.replicate 16 (0 : Byte)

/-- A batch payment of amount 100 between user aa and provider bb. -/
def payA : EscrowBatchPayment :=
  { evt_tx_hash := "0xa"
    evt_index := 0
    evt_block_time := some 1
    evt_block_number := 1
    amount := "100"
    num_calls := "1"
    provider := [0xbb]
    user := [0xaa] }

/-- A second batch payment of amount 200 in the same batch. -/
def payB : EscrowBatchPayment :=
  { payA with evt_tx_hash := "0xb", evt_index := 1, amount := "200" }

/-- A batch with two payments, of amounts 100 and 200. -/
def evts2 : Events :=
  { escrow_batch_payments := [payA, payB]
    escrow_user_deposits := []
    escrow_user_withdraws := []
    escrow_provider_withdraws := [] }

/-- A batch with the single payment of amount 100. -/
def evts3 : Events :=
  { escrow_batch_payments := [payA]
    escrow_user_deposits := []
    escrow_user_withdraws := []
    escrow_provider_withdraws := [] }

/-- A block with number 1 and timestamp 2. -/
def blk0 : Integration.Block :=
  { number := 1, timestamp := 2 }

/-- A log from the tracked contract carrying the UserDeposit signature and a
32-byte user topic, but an EMPTY data payload: shorter than the 32-byte
amount slot. -/
def shortDataLog : Integration.Log :=
  { address := ESCROW_CONTRACT_ADDRESS
    topics := [USER_DEPOSIT_EVENT_SIG, List.replicate 32 (0 : Byte)]
    data := [] }

/-- A log from an unrelated contract (the all-zero address). -/
def foreignLog : Integration.Log :=
  { address := List.replicate 20 (0 : Byte)
    topics := [USER_DEPOSIT_EVENT_SIG, List.replicate 32 (0 : Byte)]
    data := List.replicate 32 (0 : Byte) }

/-- A log from the tracked contract with no topics at all. -/
def topiclessLog : Integration.Log :=
  { address := ESCROW_CONTRACT_ADDRESS
    topics := []
    data := List.replicate 32 (0 : Byte) }

/-- A log from the tracked contract whose first topic is no known signature. -/
def unknownSigLog : Integration.Log :=
  { address := ESCROW_CONTRACT_ADDRESS
    topics := [List.replicate 32 (1 : Byte)]
    data := List.replicate 32 (0 : Byte) }

/-- A log carrying the BatchPayment signature with only 2 topics, fewer than
the 3 that signature requires. -/
def batchShortLog : Integration.Log :=
  { address := ESCROW_CONTRACT_ADDRESS
    topics := [BATCH_PAYMENT_EVENT_SIG, List.replicate 32 (0 : Byte)]
    data := List.replicate 64 (0 : Byte) }

/-- A log carrying the UserDeposit signature with only 1 topic, fewer than
the 2 that signature requires. -/
def depositShortLog : Integration.Log :=
  { address := ESCROW_CONTRACT_ADDRESS
    topics := [USER_DEPOSIT_EVENT_SIG]
    data := List.replicate 32 (0 : Byte) }

/-- A log carrying the UserWithdraw signature with only 1 topic, fewer than
the 2 that signature requires. -/
def withdrawShortLog : Integration.Log :=
  { address := ESCROW_CONTRACT_ADDRESS
    topics := [USER_WITHDRAW_EVENT_SIG]
    data := List.replicate 32 (0 : Byte) }

/-- A log carrying the ProviderWithdraw signature with only 1 topic, fewer
than the 2 that signature requires. -/
def providerShortLog : Integration.Log :=
  { address := ESCROW_CONTRACT_ADDRESS
    topics := [PROVIDER_WITHDRAW_EVENT_SIG]
    data := List.replicate 32 (0 : Byte) }

/-- A log carrying the ZkVerifierUpdated signature with only 2 topics, fewer
than the 3 that signature requires. -/
def zkShortLog : Integration.Log :=
  { address := ESCROW_CONTRACT_ADDRESS
    topics := [ZK_VERIFIER_UPDATED_EVENT_SIG, List.replicate 32 (0 : Byte)]
    data := [] }

/-- A concrete 20-byte address (twenty aa bytes) for the round-trip witness. -/
def addr20 : List Byte :=
  List.replicate 20 (0xaa : Byte)

/-- One payment between a one-byte user u and provider p with amount a. -/
def mkPay (u p : Byte) (tx : String) (a : String) : EscrowBatchPayment :=
  { evt_tx_hash := tx
    evt_index := 0
    evt_block_time := some 1
    evt_block_number := 1
    amount := a
    num_calls := "1"
    provider := [p]
    user := [u] }

/-- Six distinct (user, provider) pairs; the sixth pair interacts twice (the
unique highest weight) and is first observed last. -/
def evts5 : Events :=
  { escrow_batch_payments := [mkPay 1 11 "a" "10", mkPay 2 12 "b" "10",
      mkPay 3 13 "c" "10", mkPay 4 14 "d" "10", mkPay 5 15 "e" "10",
      mkPay 6 16 "f" "10", mkPay 6 16 "g" "10"]
    escrow_user_deposits := []
    escrow_user_withdraws := []
    escrow_provider_withdraws := [] }

/-- A payment of 1000 over 5 calls to provider bb. -/
def pay1000 : EscrowBatchPayment :=
  { payA with amount := "1000", num_calls := "5", provider := [0xbb] }

/-- A provider withdrawal of 500 by provider bb. -/
def wd500 : EscrowProviderWithdraw :=
  { evt_tx_hash := "0xc"
    evt_index := 2
    evt_block_time := some 1
    evt_block_number := 1
    amount := "500"
    provider := [0xbb] }

/-- The spec scenario batch: earnings 1000, withdrawals 500 for provider bb. -/
def evts8 : Events :=
  { escrow_batch_payments := [pay1000]
    escrow_user_deposits := []
    escrow_user_withdraws := []
    escrow_provider_withdraws := [wd500] }

/-- The provider-metrics entry the scenario batch produces for provider bb. -/
def m8 : ProviderMetricsM :=
  { provider_address := [0xbb]
    total_earnings := 1000
    total_withdrawals := 500
    unique_users := 0
    total_api_calls := 5
    avg_call_value := 200
    reliability_score := 1
    growth_rate := 0 }

/-- The degenerate anomaly batch: four payments of identical magnitude 10. -/
def evts9a : Events :=
  { escrow_batch_payments := [mkPay 1 11 "a" "10", mkPay 1 11 "b" "10",
      mkPay 1 11 "c" "10", mkPay 1 11 "d" "10"]
    escrow_user_deposits := []
    escrow_user_withdraws := []
    escrow_provider_withdraws := [] }

/-- A batch with one small payment and two payments above one million. -/
def evts10 : Events :=
  { escrow_batch_payments := [mkPay 1 11 "small" "10",
      mkPay 2 12 "big1" "2000000", mkPay 3 13 "big2" "3000000"]
    escrow_user_deposits := []
    escrow_user_withdraws := []
    escrow_provider_withdraws := [] }

/-- Association-list lookup with decidable key equality. -/
def dlookup {α β : Type} [DecidableEq α] (m : List (α × β)) (k : α) : Option β :=
  match m with
  | [] => none
  | (k2, v) :: rest => if k2 = k then some v else dlookup rest k

/-- The first edge map_network_metrics lists for the six-pair batch. -/
def e5 : UserProviderEdge :=
  { user_address := [1]
    provider_address := [11]
    total_volume := "0"
    transaction_count := 1
    relationship_strength := 1 / 10 }

/-! Part 4: helper lemmas. -/

lemma insertNew_of_mem {α : Type} [DecidableEq α] {l : List α} {a : α} (h : a ∈ l) :
    insertNew l a = l := by
  simp [insertNew, h]

lemma mem_insertNew {α : Type} [DecidableEq α] {l : List α} {a x : α} :
    x ∈ insertNew l a ↔ x ∈ l ∨ x = a := by
  by_cases h : a ∈ l
  · rw [insertNew_of_mem h]
    constructor
    · exact Or.inl
    · rintro (hx | rfl)
      · exact hx
      · exact h
  · simp [insertNew, h]

lemma mem_foldl_insertNew {α β : Type} [DecidableEq β] (f : α → β) :
    ∀ (l : List α) (acc : List β) (x : β),
      x ∈ l.foldl (fun us p => insertNew us (f p)) acc ↔ x ∈ acc ∨ ∃ p ∈ l, f p = x := by
  intro l
  induction l with
  | nil => simp
  | cons p l ih =>
      intro acc x
      simp only [List.foldl_cons, ih, mem_insertNew, List.mem_cons]
      constructor
      · rintro ((hx | rfl) | ⟨q, hq, rfl⟩)
        · exact Or.inl hx
        · exact Or.inr ⟨p, Or.inl rfl, rfl⟩
        · exact Or.inr ⟨q, Or.inr hq, rfl⟩
      · rintro (hx | ⟨q, (rfl | hq), rfl⟩)
        · exact Or.inl (Or.inl hx)
        · exact Or.inl (Or.inr rfl)
        · exact Or.inr ⟨q, hq, rfl⟩

lemma foldl_insertNew_no_op {α β : Type} [DecidableEq β] (f : α → β) :
    ∀ (l : List α) (acc : List β), (∀ p ∈ l, f p ∈ acc) →
      l.foldl (fun us p => insertNew us (f p)) acc = acc := by
  intro l
  induction l with
  | nil => simp
  | cons p l ih =>
      intro acc h
      simp only [List.foldl_cons]
      rw [insertNew_of_mem (h p (by simp))]
      exact ih acc (fun q hq => h q (by simp [hq]))

lemma foldl_insertNew_self_append {α β : Type} [DecidableEq β] (f : α → β)
    (l : List α) (acc : List β) :
    (l ++ l).foldl (fun us p => insertNew us (f p)) acc
      = l.foldl (fun us p => insertNew us (f p)) acc := by
  rw [List.foldl_append]
  apply foldl_insertNew_no_op
  intro p hp
  rw [mem_foldl_insertNew]
  exact Or.inr ⟨p, hp, rfl⟩

lemma paStep_foldl_total_volume :
    ∀ (l : List EscrowBatchPayment) (s : PAState),
      (l.foldl paStep s).total_volume
        = s.total_volume + (l.filterMap (fun p => parseDec p.amount)).sum := by
  intro l
  induction l with
  | nil => simp
  | cons p l ih =>
      intro s
      simp only [List.foldl_cons, List.filterMap_cons]
      cases h : parseDec p.amount with
      | none => simp [paStep, h, ih]
      | some a =>
          simp only [paStep, h, ih, List.sum_cons]
          omega

lemma paStep_foldl_payment_count :
    ∀ (l : List EscrowBatchPayment) (s : PAState),
      (l.foldl paStep s).payment_count
        = s.payment_count + (l.filter (fun p => (parseDec p.amount).isSome)).length := by
  intro l
  induction l with
  | nil => simp
  | cons p l ih =>
      intro s
      simp only [List.foldl_cons, List.filter_cons]
      cases h : parseDec p.amount with
      | none => simp [paStep, h, ih]
      | some a =>
          simp only [paStep, h, ih, Option.isSome_some, if_true]
          simp
          omega

lemma paStep_foldl_users :
    ∀ (l : List EscrowBatchPayment) (s : PAState),
      (l.foldl paStep s).users
        = (l.filter (fun p => (parseDec p.amount).isSome)).foldl
            (fun us p => insertNew us p.user) s.users := by
  intro l
  induction l with
  | nil => simp
  | cons p l ih =>
      intro s
      simp only [List.foldl_cons, List.filter_cons]
      cases h : parseDec p.amount with
      | none => simp [paStep, h, ih]
      | some a =>
          simp only [paStep, h, ih, Option.isSome_some, if_true]
          simp [List.foldl_cons]

lemma paStep_foldl_providers :
    ∀ (l : List EscrowBatchPayment) (s : PAState),
      (l.foldl paStep s).providers
        = (l.filter (fun p => (parseDec p.amount).isSome)).foldl
            (fun us p => insertNew us p.provider) s.providers := by
  intro l
  induction l with
  | nil => simp
  | cons p l ih =>
      intro s
      simp only [List.foldl_cons, List.filter_cons]
      cases h : parseDec p.amount with
      | none => simp [paStep, h, ih]
      | some a =>
          simp only [paStep, h, ih, Option.isSome_some, if_true]
          simp [List.foldl_cons]

lemma dlookup_upsert_self {α β : Type} [DecidableEq α]
    (m : List (α × β)) (k : α) (d : β) (f : β → β) :
    dlookup (upsert m k d f) k = some (f ((dlookup m k).getD d)) := by
  induction m with
  | nil => simp [upsert, dlookup]
  | cons kv m ih =>
      obtain ⟨k2, v⟩ := kv
      by_cases h : k2 = k
      · subst h
        simp [upsert, dlookup]
      · simp [upsert, dlookup, h, ih]

lemma dlookup_upsert_ne {α β : Type} [DecidableEq α]
    (m : List (α × β)) (k k2 : α) (d : β) (f : β → β) (h : k2 ≠ k) :
    dlookup (upsert m k d f) k2 = dlookup m k2 := by
  induction m with
  | nil => simp [upsert, dlookup, Ne.symm h]
  | cons kv m ih =>
      obtain ⟨k3, v⟩ := kv
      by_cases h3 : k3 = k
      · subst h3
        simp [upsert, dlookup, Ne.symm h]
      · simp only [upsert, if_neg h3, dlookup]
        split
        · rfl
        · exact ih

lemma upsert_keys {α β : Type} [DecidableEq α]
    (m : List (α × β)) (k : α) (d : β) (f : β → β) :
    (upsert m k d f).map Prod.fst = insertNew (m.map Prod.fst) k := by
  induction m with
  | nil => simp [upsert, insertNew]
  | cons kv m ih =>
      obtain ⟨k2, v⟩ := kv
      by_cases h : k2 = k
      · subst h
        simp [upsert, insertNew]
      · simp only [upsert, if_neg h, List.map_cons, ih]
        by_cases hk : k ∈ m.map Prod.fst
        · rw [insertNew_of_mem hk, insertNew_of_mem (by simp [hk])]
        · rw [insertNew, if_neg hk, insertNew, if_neg (by simp [hk, Ne.symm h])]
          simp

lemma insertNew_nodup {α : Type} [DecidableEq α] {l : List α} (h : l.Nodup) (a : α) :
    (insertNew l a).Nodup := by
  by_cases ha : a ∈ l
  · rw [insertNew_of_mem ha]; exact h
  · rw [insertNew, if_neg ha]
    simp [List.nodup_append, h, ha]

lemma foldl_insertNew_nodup {α β : Type} [DecidableEq β] (f : α → β) :
    ∀ (l : List α) (acc : List β), acc.Nodup →
      (l.foldl (fun us p => insertNew us (f p)) acc).Nodup := by
  intro l
  induction l with
  | nil => intro acc h; exact h
  | cons p l ih =>
      intro acc h
      exact ih _ (insertNew_nodup h (f p))

lemma dlookup_of_mem_nodup {α β : Type} [DecidableEq α] :
    ∀ (m : List (α × β)), (m.map Prod.fst).Nodup → ∀ kv ∈ m, dlookup m kv.1 = some kv.2 := by
  intro m
  induction m with
  | nil => simp
  | cons kv2 m ih =>
      intro hnd kv hkv
      obtain ⟨k2, v2⟩ := kv2
      simp only [List.map_cons, List.nodup_cons] at hnd
      rcases List.mem_cons.mp hkv with rfl | hm
      · simp [dlookup]
      · have hne : k2 ≠ kv.1 := by
          intro hh
          exact hnd.1 (hh ▸ List.mem_map_of_mem Prod.fst hm)
        simp only [dlookup, if_neg hne]
        exact ih hnd.2 kv hm

lemma nmStep_foldl_keys :
    ∀ (l : List EscrowBatchPayment) (s : NMState),
      ((l.foldl nmStep s).connections).map Prod.fst
        = l.foldl (fun ks p => insertNew ks (p.user, p.provider))
            (s.connections.map Prod.fst) := by
  intro l
  induction l with
  | nil => simp
  | cons p l ih =>
      intro s
      simp only [List.foldl_cons, ih, nmStep, upsert_keys]

lemma nmStep_foldl_dlookup :
    ∀ (l : List EscrowBatchPayment) (s : NMState) (pr : List Byte × List Byte),
      (dlookup (l.foldl nmStep s).connections pr).getD 0
        = (dlookup s.connections pr).getD 0 + countPair l pr := by
  intro l
  induction l with
  | nil => simp [countPair]
  | cons p l ih =>
      intro s pr
      simp only [List.foldl_cons, ih, nmStep]
      by_cases h : (p.user, p.provider) = pr
      · rw [h, dlookup_upsert_self]
        simp only [countPair, List.filter_cons, h]
        simp
        omega
      · rw [dlookup_upsert_ne _ _ _ _ _ (fun hh => h hh.symm)]
        simp only [countPair, List.filter_cons]
        have hne : ¬ ((p.user, p.provider) = pr) := h
        simp [hne]

lemma upsert_forall {α β : Type} [DecidableEq α] {P : β → Prop} :
    ∀ (m : List (α × β)) (k : α) (d : β) (f : β → β),
      (∀ kv ∈ m, P kv.2) → P (f d) → (∀ v, P v → P (f v)) →
      ∀ kv ∈ upsert m k d f, P kv.2 := by
  intro m
  induction m with
  | nil =>
      intro k d f _ hd _ kv hkv
      simp only [upsert, List.mem_singleton] at hkv
      rw [hkv]
      exact hd
  | cons kv2 m ih =>
      intro k d f hm hd hf kv hkv
      obtain ⟨k2, v2⟩ := kv2
      by_cases h : k2 = k
      · simp only [upsert, if_pos h] at hkv
        rcases List.mem_cons.mp hkv with h2 | h2
        · rw [h2]
          exact hf v2 (hm (k2, v2) (List.mem_cons_self _ _))
        · exact hm kv (List.mem_cons_of_mem _ h2)
      · simp only [upsert, if_neg h] at hkv
        rcases List.mem_cons.mp hkv with h2 | h2
        · rw [h2]
          exact hm (k2, v2) (List.mem_cons_self _ _)
        · exact ih k d f (fun x hx => hm x (List.mem_cons_of_mem _ hx)) hd hf kv h2

lemma providerPayStep_score_zero :
    ∀ (l : List EscrowBatchPayment) (m : List (List Byte × ProviderMetricsM)),
      (∀ kv ∈ m, kv.2.reliability_score = 0) →
      ∀ kv ∈ l.foldl providerPayStep m, kv.2.reliability_score = 0 := by
  intro l
  induction l with
  | nil => intro m hm; exact hm
  | cons p l ih =>
      intro m hm
      apply ih
      refine upsert_forall (P := fun v => v.reliability_score = 0) m p.provider {} _ hm ?_ ?_
      · cases h : parseDec p.amount with
        | none => simp [h]
        | some a =>
            cases h2 : parseU64 p.num_calls with
            | none => simp [h, h2]
            | some c => simp [h, h2]
      · intro v hv
        cases h : parseDec p.amount with
        | none => simpa [h] using hv
        | some a =>
            cases h2 : parseU64 p.num_calls with
            | none => simpa [h, h2] using hv
            | some c => simpa [h, h2] using hv

lemma providerWithdrawStep_score_zero :
    ∀ (l : List EscrowProviderWithdraw) (m : List (List Byte × ProviderMetricsM)),
      (∀ kv ∈ m, kv.2.reliability_score = 0) →
      ∀ kv ∈ l.foldl providerWithdrawStep m, kv.2.reliability_score = 0 := by
  intro l
  induction l with
  | nil => intro m hm; exact hm
  | cons w l ih =>
      intro m hm
      apply ih
      refine upsert_forall (P := fun v => v.reliability_score = 0) m w.provider {} _ hm ?_ ?_
      · cases h : parseDec w.amount with
        | none => simp [h]
        | some a => simp [h]
      · intro v hv
        cases h : parseDec w.amount with
        | none => simpa [h] using hv
        | some a => simpa [h] using hv

lemma threeSigma_iff_sqrt (x m v : Real) (hv : 0 ≤ v) :
    m + 3 * Real.sqrt v < x ↔ (m < x ∧ 9 * v < (x - m) ^ 2) := by
  constructor
  · intro h
    have hs : 0 ≤ Real.sqrt v := Real.sqrt_nonneg v
    have hm : m < x := by linarith
    refine ⟨hm, ?_⟩
    have h3 : 3 * Real.sqrt v < x - m := by linarith
    have hsq : (3 * Real.sqrt v) ^ 2 = 9 * v := by
      rw [mul_pow, Real.sq_sqrt hv]
      ring
    nlinarith [h3, hs]
  · rintro ⟨h1, h2⟩
    have hxm : 0 < x - m := by linarith
    have hlt : Real.sqrt (9 * v) < Real.sqrt ((x - m) ^ 2) :=
      Real.sqrt_lt_sqrt (by positivity) h2
    rw [Real.sqrt_sq hxm.le] at hlt
    have h9 : Real.sqrt (9 * v) = 3 * Real.sqrt v := by
      rw [show (9 : Real) * v = 3 ^ 2 * v by ring, Real.sqrt_mul (by positivity),
        Real.sqrt_sq (by norm_num)]
    rw [h9] at hlt
    linarith

lemma sum_of_all_eq (c : Rat) :
    ∀ (l : List Rat), (∀ x ∈ l, x = c) → l.sum = c * l.length := by
  intro l
  induction l with
  | nil => simp
  | cons x l ih =>
      intro h
      have hx : x = c := h x (by simp)
      have hrest := ih (fun y hy => h y (by simp [hy]))
      simp only [List.sum_cons, List.length_cons, hx, hrest]
      push_cast
      ring

lemma anomalyLoop_eq_find :
    ∀ (l : List EscrowBatchPayment),
      anomalyLoop l = match l.find? isLargePayment with
        | some p => largeAlert p
        | none => noneAlert := by
  intro l
  induction l with
  | nil => simp [anomalyLoop]
  | cons p l ih =>
      by_cases h : isLargePayment p
      · simp [anomalyLoop, h, List.find?_cons_of_pos _ h]
      · rw [List.find?_cons_of_neg _ (by simpa using h)]
        simp only [anomalyLoop, ih]
        rw [if_neg h]

lemma byte_foldl_lt :
    ∀ (l : List Byte) (acc : Nat),
      l.foldl (fun r b => r * 256 + b.val) acc < (acc + 1) * 256 ^ l.length := by
  intro l
  induction l with
  | nil => simp
  | cons b l ih =>
      intro acc
      have h := ih (acc * 256 + b.val)
      have hb : b.val < 256 := b.isLt
      have hmono : (acc * 256 + b.val + 1) * 256 ^ l.length
          ≤ ((acc + 1) * 256) * 256 ^ l.length := by
        apply Nat.mul_le_mul_right
        omega
      calc (b :: l).foldl (fun r b => r * 256 + b.val) acc
          = l.foldl (fun r b => r * 256 + b.val) (acc * 256 + b.val) := by rfl
        _ < (acc * 256 + b.val + 1) * 256 ^ l.length := h
        _ ≤ ((acc + 1) * 256) * 256 ^ l.length := hmono
        _ = (acc + 1) * 256 ^ (b :: l).length := by
            simp [List.length_cons, pow_succ]
            ring

/-- C1: the amount decoder truncates to the low 16 bytes of the 32-byte
slot: on the slot holding 2^128 it returns "0" while the full-width
big-endian value mandated by the spec is 2^128, and in general every value
it can return is below 2^128. -/
theorem c1_extract_uint256_truncates :
    extract_uint256_from_data d128 0 = "0"
  ∧ spec_full_uint256 d128 0 = 2 ^ 128
  ∧ (∀ (data : List Byte) (offset : Nat),
      ∃ n : Nat, n < 2 ^ 128 ∧ extract_uint256_from_data data offset = toString n) := by
  refine ⟨by decide, by decide, ?_⟩
  intro data offset
  by_cases h : offset + 32 ≤ data.length
  · refine ⟨(((data.drop offset).take 32).drop 16).foldl (fun r b => r * 256 + b.val) 0,
      ?_, by simp [extract_uint256_from_data, h]⟩
    have hb := byte_foldl_lt (((data.drop offset).take 32).drop 16) 0
    have hlen : (((data.drop offset).take 32).drop 16).length ≤ 16 := by
      simp only [List.length_drop, List.length_take]
      omega
    calc (((data.drop offset).take 32).drop 16).foldl (fun r b => r * 256 + b.val) 0
        < (0 + 1) * 256 ^ (((data.drop offset).take 32).drop 16).length := hb
      _ ≤ 256 ^ 16 := by
          simp only [Nat.zero_add, Nat.one_mul]
          exact Nat.pow_le_pow_right (by norm_num) hlen
      _ = 2 ^ 128 := by norm_num
  · exact ⟨0, by positivity, by simp [extract_uint256_from_data, h]; rfl⟩

/-- C2: the exact-sum variant calculate_analytics does return the exact
arithmetic sum of parsed amounts, but map_payment_analytics (the module
handler that produces the PaymentAnalytics proto) returns the FIRST payment
amount instead: on a batch of amounts 100 and 200 it reports "100" where
the exact sum is 300. -/
theorem c2_total_volume : 
    (∀ events : Events, (calculate_analytics events).total_volume
        = (events.escrow_batch_payments.filterMap (fun p => parseDec p.amount)).sum)
  ∧ (evts2.escrow_batch_payments.filterMap (fun p => parseDec p.amount)).sum = 300
  ∧ (map_payment_analytics evts2).total_volume = "100"
  ∧ (calculate_analytics evts2).total_volume = 300 := by
  refine ⟨?_, by decide, by decide, by decide⟩
  intro events
  simp [calculate_analytics, paStep_foldl_total_volume]

/-- C3 counterexample: processing the batch in which the single payment of
amount 100 is delivered twice (same transaction hash and log index) yields
total_volume 200, not the 100 obtained from processing it once: duplicates
are not discarded. -/
theorem c3_no_dedup_counterexample :
    (calculate_analytics (dupBatch evts3)).total_volume = 200
  ∧ (calculate_analytics evts3).total_volume = 100
  ∧ (200 : Nat) ≠ 100 :=
  ⟨by decide, by decide, by decide⟩

/-- C3 amended: processing a batch in which every event appears twice
doubles the additive aggregates (total volume and payment count) and leaves
the unique user and provider counts unchanged; no deduplication keyed by
(transaction_hash, log_index) takes place. -/
theorem c3_duplicate_batch_doubles (events : Events) :
    (calculate_analytics (dupBatch events)).total_volume
        = 2 * (calculate_analytics events).total_volume
  ∧ (calculate_analytics (dupBatch events)).payment_frequency
        = 2 * (calculate_analytics events).payment_frequency
  ∧ (calculate_analytics (dupBatch events)).unique_users
        = (calculate_analytics events).unique_users
  ∧ (calculate_analytics (dupBatch events)).unique_providers
        = (calculate_analytics events).unique_providers := by
  refine ⟨?_, ?_, ?_, ?_⟩
  · simp only [calculate_analytics, dupBatch, paStep_foldl_total_volume,
      List.filterMap_append, List.sum_append]
    omega
  · simp only [calculate_analytics, dupBatch, paStep_foldl_payment_count,
      List.filter_append, List.length_append]
    omega
  · simp only [calculate_analytics, dupBatch, paStep_foldl_users]
    congr 1
    rw [List.filter_append,
      foldl_insertNew_self_append (fun p : EscrowBatchPayment => p.user),
      List.foldl_append]
    exact foldl_insertNew_no_op (fun d : EscrowUserDeposit => d.user) _ _
      (fun dep hdep =>
        (mem_foldl_insertNew (fun d : EscrowUserDeposit => d.user) _ _ _).mpr
          (Or.inr ⟨dep, hdep, rfl⟩))
  · simp only [calculate_analytics, dupBatch, paStep_foldl_providers]
    congr 1
    rw [List.filter_append]
    exact foldl_insertNew_self_append (fun p : EscrowBatchPayment => p.provider) _ _

/-- C4 counterexample: a log from the tracked contract with the UserDeposit
signature, 2 topics, and an EMPTY data payload (shorter than the 32-byte
amount slot) still decodes to an event — the data-length precondition is
not enforced. -/
theorem c4_short_data_still_decodes :
    shortDataLog.data.length < 32
  ∧ (decode_log shortDataLog "t" blk0).isSome = true :=
  ⟨by decide, by decide⟩

/-- C4 amended: for a tracked-contract log carrying the UserDeposit
signature, decode enforces the minimum topic count (fewer than 2 topics
yields no event), but does NOT enforce the minimum data length: with enough
topics and data shorter than the 32-byte amount slot it still emits an
event, whose amount field falls back to "0". -/
theorem c4_structural_preconditions (log : Integration.Log) (tx : String) (blk : Integration.Block)
    (haddr : log.address = ESCROW_CONTRACT_ADDRESS)
    (hsig : log.topics.getD 0 [] = USER_DEPOSIT_EVENT_SIG) :
    (log.topics.length < 2 → decode_log log tx blk = none)
  ∧ (2 ≤ log.topics.length → log.data.length < 32 →
      ∃ ev, decode_log log tx blk = some ev ∧ ev.amount_cents = "0") := by
  have hne : log.topics ≠ [] := by
    intro hempty
    rw [hempty] at hsig
    exact absurd hsig (by decide)
  have hdec : decode_log log tx blk = parse_user_deposit_event log tx blk := by
    rw [decode_log, if_neg (by simp [haddr]), if_neg (by simp [List.isEmpty_iff, hne])]
    rw [if_pos hsig]
  constructor
  · intro hlen
    rw [hdec, parse_user_deposit_event, if_pos hlen]
  · intro hlen hdata
    rw [hdec, parse_user_deposit_event, if_neg (by omega)]
    refine ⟨_, rfl, ?_⟩
    simp only [extract_uint256_from_data]
    rw [if_neg (by omega)]

/-- C4 witness: the concrete short-data log satisfies the hypotheses of the
amended theorem and indeed yields an event with amount "0". -/
theorem c4_structural_preconditions_witness :
    shortDataLog.address = ESCROW_CONTRACT_ADDRESS
  ∧ shortDataLog.topics.getD 0 [] = USER_DEPOSIT_EVENT_SIG
  ∧ 2 ≤ shortDataLog.topics.length
  ∧ shortDataLog.data.length < 32
  ∧ ∃ ev, decode_log shortDataLog "t" blk0 = some ev ∧ ev.amount_cents = "0" :=
  ⟨by decide, by decide, by decide, by decide,
    (c4_structural_preconditions shortDataLog "t" blk0 (by decide) (by decide)).2
      (by decide) (by decide)⟩

/-- C6: decode returns none in every soft-skip case: a log from another
contract, a log with no topics, a first topic matching no known signature,
and — for EVERY recognized signature — a log with fewer topics than that
signature requires (2 for UserDeposit, UserWithdraw and ProviderWithdraw,
3 for BatchPayment and ZkVerifierUpdated). -/
theorem c6_soft_skip_cases (log : Integration.Log) (tx : String) (blk : Integration.Block) :
    (log.address ≠ ESCROW_CONTRACT_ADDRESS → decode_log log tx blk = none)
  ∧ (log.topics = [] → decode_log log tx blk = none)
  ∧ (log.topics.getD 0 [] ∉ ([USER_DEPOSIT_EVENT_SIG, USER_WITHDRAW_EVENT_SIG,
        PROVIDER_WITHDRAW_EVENT_SIG, BATCH_PAYMENT_EVENT_SIG,
        ZK_VERIFIER_UPDATED_EVENT_SIG] : List (List Byte)) →
      decode_log log tx blk = none)
  ∧ (∀ sig req, (sig, req) ∈ ([(USER_DEPOSIT_EVENT_SIG, 2), (USER_WITHDRAW_EVENT_SIG, 2),
        (PROVIDER_WITHDRAW_EVENT_SIG, 2), (BATCH_PAYMENT_EVENT_SIG, 3),
        (ZK_VERIFIER_UPDATED_EVENT_SIG, 3)] : List (List Byte × Nat)) →
      log.topics.getD 0 [] = sig → log.topics.length < req →
      decode_log log tx blk = none) := by
  refine ⟨?_, ?_, ?_, ?_⟩
  · intro h
    rw [decode_log, if_pos h]
  · intro h
    rw [decode_log]
    split
    · rfl
    · rw [if_pos (by simp [List.isEmpty_iff, h])]
  · intro h
    simp only [List.mem_cons, List.not_mem_nil, or_false, not_or] at h
    obtain ⟨h1, h2, h3, h4, h5⟩ := h
    rw [decode_log]
    split
    · rfl
    · split
      · rfl
      · rw [if_neg h1, if_neg h2, if_neg h3, if_neg h4, if_neg h5]
  · intro sig req hmem hsig hlen
    simp only [List.mem_cons, List.not_mem_nil, or_false, Prod.mk.injEq] at hmem
    rw [decode_log]
    split
    · rfl
    · split
      · rfl
      · rcases hmem with ⟨rfl, rfl⟩ | ⟨rfl, rfl⟩ | ⟨rfl, rfl⟩ | ⟨rfl, rfl⟩ | ⟨rfl, rfl⟩
        · rw [if_pos hsig]
          rw [parse_user_deposit_event, if_pos hlen]
        · rw [if_neg (hsig ▸ (by decide : USER_WITHDRAW_EVENT_SIG ≠ USER_DEPOSIT_EVENT_SIG)),
            if_pos hsig]
          rw [parse_user_withdraw_event, if_pos hlen]
        · rw [if_neg (hsig ▸ (by decide : PROVIDER_WITHDRAW_EVENT_SIG ≠ USER_DEPOSIT_EVENT_SIG)),
            if_neg (hsig ▸ (by decide : PROVIDER_WITHDRAW_EVENT_SIG ≠ USER_WITHDRAW_EVENT_SIG)),
            if_pos hsig]
          rw [parse_provider_withdraw_event, if_pos hlen]
        · rw [if_neg (hsig ▸ (by decide : BATCH_PAYMENT_EVENT_SIG ≠ USER_DEPOSIT_EVENT_SIG)),
            if_neg (hsig ▸ (by decide : BATCH_PAYMENT_EVENT_SIG ≠ USER_WITHDRAW_EVENT_SIG)),
            if_neg (hsig ▸ (by decide : BATCH_PAYMENT_EVENT_SIG ≠ PROVIDER_WITHDRAW_EVENT_SIG)),
            if_pos hsig]
          rw [parse_batch_payment_event, if_pos hlen]
        · rw [if_neg (hsig ▸ (by decide : ZK_VERIFIER_UPDATED_EVENT_SIG ≠ USER_DEPOSIT_EVENT_SIG)),
            if_neg (hsig ▸ (by decide : ZK_VERIFIER_UPDATED_EVENT_SIG ≠ USER_WITHDRAW_EVENT_SIG)),
            if_neg (hsig ▸ (by decide : ZK_VERIFIER_UPDATED_EVENT_SIG ≠ PROVIDER_WITHDRAW_EVENT_SIG)),
            if_neg (hsig ▸ (by decide : ZK_VERIFIER_UPDATED_EVENT_SIG ≠ BATCH_PAYMENT_EVENT_SIG)),
            if_pos hsig]
          rw [parse_zk_verifier_updated_event, if_pos hlen]

/-- C6 witness: the soft-skip cases at concrete logs — foreign address, no
topics, unknown signature, and each of the five recognized signatures with
fewer topics than it requires — all decode to none. -/
theorem c6_soft_skip_witness :
    (foreignLog.address ≠ ESCROW_CONTRACT_ADDRESS ∧ decode_log foreignLog "t" blk0 = none)
  ∧ (topiclessLog.topics = [] ∧ decode_log topiclessLog "t" blk0 = none)
  ∧ (unknownSigLog.topics.getD 0 [] ∉ ([USER_DEPOSIT_EVENT_SIG, USER_WITHDRAW_EVENT_SIG,
        PROVIDER_WITHDRAW_EVENT_SIG, BATCH_PAYMENT_EVENT_SIG,
        ZK_VERIFIER_UPDATED_EVENT_SIG] : List (List Byte))
      ∧ decode_log unknownSigLog "t" blk0 = none)
  ∧ (depositShortLog.topics.length < 2 ∧ decode_log depositShortLog "t" blk0 = none)
  ∧ (withdrawShortLog.topics.length < 2 ∧ decode_log withdrawShortLog "t" blk0 = none)
  ∧ (providerShortLog.topics.length < 2 ∧ decode_log providerShortLog "t" blk0 = none)
  ∧ (batchShortLog.topics.length < 3 ∧ decode_log batchShortLog "t" blk0 = none)
  ∧ (zkShortLog.topics.length < 3 ∧ decode_log zkShortLog "t" blk0 = none) :=
  ⟨⟨by decide, (c6_soft_skip_cases foreignLog "t" blk0).1 (by decide)⟩,
   ⟨by decide, (c6_soft_skip_cases topiclessLog "t" blk0).2.1 (by decide)⟩,
   ⟨by decide, (c6_soft_skip_cases unknownSigLog "t" blk0).2.2.1 (by decide)⟩,
   ⟨by decide, (c6_soft_skip_cases depositShortLog "t" blk0).2.2.2
      USER_DEPOSIT_EVENT_SIG 2 (by decide) (by decide) (by decide)⟩,
   ⟨by decide, (c6_soft_skip_cases withdrawShortLog "t" blk0).2.2.2
      USER_WITHDRAW_EVENT_SIG 2 (by decide) (by decide) (by decide)⟩,
   ⟨by decide, (c6_soft_skip_cases providerShortLog "t" blk0).2.2.2
      PROVIDER_WITHDRAW_EVENT_SIG 2 (by decide) (by decide) (by decide)⟩,
   ⟨by decide, (c6_soft_skip_cases batchShortLog "t" blk0).2.2.2
      BATCH_PAYMENT_EVENT_SIG 3 (by decide) (by decide) (by decide)⟩,
   ⟨by decide, (c6_soft_skip_cases zkShortLog "t" blk0).2.2.2
      ZK_VERIFIER_UPDATED_EVENT_SIG 3 (by decide) (by decide) (by decide)⟩⟩

/-- C7: encoding a 20-byte address as the last 20 bytes of a 32-byte topic
left-padded with zero bytes and decoding it returns exactly the original
20 bytes, hex-encoded behind the 0x marker. -/
theorem c7_address_roundtrip (addr : List Byte) (h : addr.length = 20) :
    extract_address_from_topic (List.replicate 12 (0 : Byte) ++ addr)
      = "0x" ++ hexEncode addr := by
  rw [extract_address_from_topic, if_pos (by simp [h])]
  congr 2
  have hd : (List.replicate 12 (0 : Byte) ++ addr).drop 12 = addr := by
    simp
  rw [hd]
  exact List.take_of_length_le (by omega)

/-- C7 witness: the round trip at the concrete address of twenty aa bytes. -/
theorem c7_address_roundtrip_witness :
    addr20.length = 20
  ∧ extract_address_from_topic (List.replicate 12 (0 : Byte) ++ addr20)
      = "0x" ++ hexEncode addr20 :=
  ⟨by decide, c7_address_roundtrip addr20 (by decide)⟩

/-- C10: map_anomaly_detection returns exactly one alert: the large_payment
alert (severity four fifths, the f64 literal 0.8) for the FIRST payment in
batch order whose amount parses above one million, and otherwise the single
none alert with severity zero — never one alert per offending payment. -/
theorem c10_single_alert (events : Events) :
    (events.escrow_batch_payments.find? isLargePayment = none →
        map_anomaly_detection events = noneAlert
      ∧ noneAlert.anomaly_type = "none" ∧ noneAlert.severity_score = 0)
  ∧ (∀ p, events.escrow_batch_payments.find? isLargePayment = some p →
        map_anomaly_detection events = largeAlert p
      ∧ (largeAlert p).anomaly_type = "large_payment"
      ∧ (largeAlert p).severity_score = 4 / 5
      ∧ (largeAlert p).transaction_hash = p.evt_tx_hash) := by
  constructor
  · intro h
    refine ⟨?_, rfl, rfl⟩
    rw [map_anomaly_detection, anomalyLoop_eq_find, h]
  · intro p h
    refine ⟨?_, rfl, rfl, rfl⟩
    rw [map_anomaly_detection, anomalyLoop_eq_find, h]

/-- C10 witness: in the batch with payments of 10, 2000000 and 3000000, the
alert reports the first large payment (tx big1) and only that one. -/
theorem c10_single_alert_witness :
    evts10.escrow_batch_payments.find? isLargePayment
        = some (mkPay 2 12 "big1" "2000000")
  ∧ map_anomaly_detection evts10 = largeAlert (mkPay 2 12 "big1" "2000000")
  ∧ (largeAlert (mkPay 2 12 "big1" "2000000")).severity_score = 4 / 5 :=
  ⟨by decide,
   ((c10_single_alert evts10).2 (mkPay 2 12 "big1" "2000000") (by decide)).1,
   ((c10_single_alert evts10).2 (mkPay 2 12 "big1" "2000000") (by decide)).2.2.1⟩

/-- C8: after provider aggregation, every provider entry with positive
total withdrawals carries reliability_score = min(total_earnings /
total_withdrawals, 1), and every entry with zero withdrawals carries
reliability_score = 0. -/
theorem c8_reliability_score (events : Events)
    (kv : List Byte × ProviderMetricsM)
    (hkv : kv ∈ analyze_provider_performance events) :
    (0 < kv.2.total_withdrawals →
        kv.2.reliability_score
          = min ((kv.2.total_earnings : Rat) / (kv.2.total_withdrawals : Rat)) 1)
  ∧ (kv.2.total_withdrawals = 0 → kv.2.reliability_score = 0) := by
  simp only [analyze_provider_performance, List.mem_map] at hkv
  obtain ⟨kv0, hkv0, rfl⟩ := hkv
  have hscore0 : kv0.2.reliability_score = 0 :=
    providerWithdrawStep_score_zero _ _
      (providerPayStep_score_zero _ [] (by simp)) kv0 hkv0
  by_cases hw : 0 < kv0.2.total_withdrawals
  · constructor
    · intro _
      simp [scoreProvider, hw]
    · intro h0
      simp only [scoreProvider, if_pos hw] at h0
      omega
  · have hw0 : kv0.2.total_withdrawals = 0 := by omega
    constructor
    · intro hpos
      simp only [scoreProvider, if_neg hw] at hpos
      omega
    · intro _
      simp [scoreProvider, hw, hscore0]

/-- C8 witness: the spec scenario — provider bb earns 1000 and withdraws
500 — yields reliability_score = min(2, 1) = 1. -/
theorem c8_reliability_score_witness :
    (([0xbb], m8) ∈ analyze_provider_performance evts8)
  ∧ 0 < m8.total_withdrawals
  ∧ m8.reliability_score
      = min ((m8.total_earnings : Rat) / (m8.total_withdrawals : Rat)) 1
  ∧ min ((m8.total_earnings : Rat) / (m8.total_withdrawals : Rat)) 1 = 1 := by
  have h1 : parseDec "1000" = some 1000 := by decide
  have h2 : parseU64 "5" = some 5 := by decide
  have h3 : parseDec "500" = some 500 := by decide
  have hmem : analyze_provider_performance evts8 = [([0xbb], m8)] := by
    simp [analyze_provider_performance, providerPayStep, providerWithdrawStep, upsert,
      scoreProvider, evts8, pay1000, wd500, payA, m8, h1, h2, h3]
    norm_num
  have hm : (([0xbb], m8) : List Byte × ProviderMetricsM)
      ∈ analyze_provider_performance evts8 := by
    rw [hmem]
    exact List.mem_singleton_self _
  refine ⟨hm, by norm_num [m8], ?_, ?_⟩
  · exact (c8_reliability_score evts8 ([0xbb], m8) hm).1 (by norm_num [m8])
  · norm_num [m8]

/-- C5 counterexample: in the batch whose sixth distinct pair interacts
twice (the strict maximum weight) and is first observed last,
top_connections lists the five weight-1 pairs and omits the maximum-weight
pair ([6], [16]) — it is not the top-5 by weight. -/
theorem c5_top5_misses_max_weight :
    countPair evts5.escrow_batch_payments ([6], [16]) = 2
  ∧ (map_network_metrics evts5).top_connections.map
      (fun e => (e.user_address, e.provider_address, e.transaction_count))
      = [([1], [11], 1), ([2], [12], 1), ([3], [13], 1), ([4], [14], 1), ([5], [15], 1)]
  ∧ ([6], [16]) ∉ (map_network_metrics evts5).top_connections.map
      (fun e => (e.user_address, e.provider_address)) :=
  ⟨by decide, by decide, by decide⟩

/-- C5 amended: top_connections is the first (up to) five distinct
(user, provider) pairs in map-iteration order (first-insertion order in
this model of the arbitrary HashMap order), each carrying its full
interaction count and relationship_strength = count / 10; pairs beyond the
first five are omitted regardless of weight, so the list is not the
top-K by weight. -/
theorem c5_top_connections (events : Events) :
    ((map_network_metrics events).top_connections.map
        (fun e => (e.user_address, e.provider_address))
      = ((events.escrow_batch_payments.map (fun p => (p.user, p.provider))).foldl
          insertNew []).take 5)
  ∧ (∀ e ∈ (map_network_metrics events).top_connections,
      e.transaction_count
          = countPair events.escrow_batch_payments (e.user_address, e.provider_address)
      ∧ e.relationship_strength = (e.transaction_count : Rat) / 10) := by
  constructor
  · simp only [map_network_metrics, List.map_map]
    have hcomp :
        ∀ kv ∈ ((events.escrow_batch_payments.foldl nmStep
            { users := [], providers := [], connections := [], total_volume := "0" }).connections).take 5,
          ((fun e : UserProviderEdge => (e.user_address, e.provider_address)) ∘
            (fun kv : (List Byte × List Byte) × Nat =>
              ({ user_address := kv.1.1, provider_address := kv.1.2, total_volume := "0",
                 transaction_count := kv.2,
                 relationship_strength := (kv.2 : Rat) / 10 } : UserProviderEdge))) kv
            = kv.1 := fun kv _ => rfl
    rw [List.map_congr_left hcomp, List.map_take, nmStep_foldl_keys, List.foldl_map]
    rfl
  · intro e he
    simp only [map_network_metrics, List.mem_map] at he
    obtain ⟨kv, hkv5, rfl⟩ := he
    have hkv : kv ∈ (events.escrow_batch_payments.foldl nmStep
        { users := [], providers := [], connections := [], total_volume := "0" }).connections :=
      List.mem_of_mem_take hkv5
    refine ⟨?_, rfl⟩
    have hnodup : (((events.escrow_batch_payments.foldl nmStep
        { users := [], providers := [], connections := [], total_volume := "0" }).connections).map
          Prod.fst).Nodup := by
      rw [nmStep_foldl_keys]
      exact foldl_insertNew_nodup _ _ _ (by simp)
    have hl := dlookup_of_mem_nodup _ hnodup kv hkv
    have hcount := nmStep_foldl_dlookup events.escrow_batch_payments
      { users := [], providers := [], connections := [], total_volume := "0" } kv.1
    rw [hl] at hcount
    simpa [dlookup] using hcount

/-- C5 witness: the first listed edge of the six-pair batch carries its
exact interaction count and the count-over-ten strength. -/
theorem c5_top_connections_witness :
    e5 ∈ (map_network_metrics evts5).top_connections
  ∧ e5.transaction_count = countPair evts5.escrow_batch_payments (e5.user_address, e5.provider_address)
  ∧ e5.relationship_strength = (e5.transaction_count : Rat) / 10 := by
  have hmem : e5 ∈ (map_network_metrics evts5).top_connections := by
    have htop : (map_network_metrics evts5).top_connections
        = e5 :: (map_network_metrics evts5).top_connections.tail := by
      simp [map_network_metrics, evts5, mkPay, nmStep, upsert, insertNew, e5]
    rw [htop]
    exact List.mem_cons_self _ _
  exact ⟨hmem, (c5_top_connections evts5).2 e5 hmem⟩

lemma anomalyVariance_nonneg (events : Events) : 0 ≤ anomalyVariance events := by
  unfold anomalyVariance
  apply div_nonneg
  · apply List.sum_nonneg
    intro x hx
    simp only [List.mem_map] at hx
    obtain ⟨y, _, rfl⟩ := hx
    positivity
  · positivity

/-- C9: detect_anomalies flags a payment exactly when its parsed magnitude
exceeds mean plus three population standard deviations of the batch
magnitudes, and in the degenerate cases — no parsed magnitudes, or all
magnitudes identical (sigma zero) — it reports zero anomalies. -/
theorem c9_three_sigma (events : Events) :
    (∀ p, p ∈ detect_anomalies events ↔
        p ∈ events.escrow_batch_payments ∧
        ∃ a : Nat, parseDec p.amount = some a ∧
          ((anomalyMean events : Real) + 3 * Real.sqrt ((anomalyVariance events : Real))
            < (a : Real)))
  ∧ (anomalyAmounts events = [] → detect_anomalies events = [])
  ∧ (∀ c : Rat, (∀ x ∈ anomalyAmounts events, x = c) → detect_anomalies events = []) := by
  have hvar : (0 : Real) ≤ ((anomalyVariance events : Rat) : Real) := by
    exact_mod_cast anomalyVariance_nonneg events
  refine ⟨?_, ?_, ?_⟩
  · intro p
    by_cases hemp : anomalyAmounts events = []
    · simp only [detect_anomalies]
      rw [if_pos hemp]
      simp only [List.not_mem_nil, false_iff, not_and]
      intro hp h
      obtain ⟨a, ha, _⟩ := h
      have hmem : ((a : Nat) : Rat) ∈ anomalyAmounts events := by
        unfold anomalyAmounts
        exact List.mem_filterMap.mpr ⟨p, hp, by simp [ha]⟩
      rw [hemp] at hmem
      exact List.not_mem_nil _ hmem
    · simp only [detect_anomalies]
      rw [if_neg hemp, List.mem_filter]
      constructor
      · rintro ⟨hp, hflag⟩
        refine ⟨hp, ?_⟩
        cases ha : parseDec p.amount with
        | none => rw [ha] at hflag; simp at hflag
        | some a =>
            rw [ha] at hflag
            simp only [threeSigmaFlag, decide_eq_true_eq] at hflag
            obtain ⟨h1, h2⟩ := hflag
            refine ⟨a, rfl, ?_⟩
            rw [threeSigma_iff_sqrt _ _ _ hvar]
            constructor
            · exact_mod_cast h1
            · exact_mod_cast h2
      · rintro ⟨hp, a, ha, hreal⟩
        refine ⟨hp, ?_⟩
        rw [ha]
        simp only [threeSigmaFlag, decide_eq_true_eq]
        rw [threeSigma_iff_sqrt _ _ _ hvar] at hreal
        constructor
        · exact_mod_cast hreal.1
        · exact_mod_cast hreal.2
  · intro h
    simp only [detect_anomalies]
    rw [if_pos h]
  · intro c hc
    by_cases hemp : anomalyAmounts events = []
    · simp only [detect_anomalies]
      rw [if_pos hemp]
    · simp only [detect_anomalies]
      rw [if_neg hemp]
      rw [List.filter_eq_nil_iff]
      intro p hp
      cases ha : parseDec p.amount with
      | none => simp
      | some a =>
          have hmem : ((a : Nat) : Rat) ∈ anomalyAmounts events := by
            unfold anomalyAmounts
            exact List.mem_filterMap.mpr ⟨p, hp, by simp [ha]⟩
          have hac : ((a : Nat) : Rat) = c := hc _ hmem
          have hn : ((anomalyAmounts events).length : Rat) ≠ 0 := by
            simpa [List.length_eq_zero] using hemp
          have hmean : anomalyMean events = c := by
            unfold anomalyMean
            rw [sum_of_all_eq c _ hc, mul_div_assoc, div_self hn, mul_one]
          have hvar0 : anomalyVariance events = 0 := by
            unfold anomalyVariance
            rw [sum_of_all_eq 0 _ ?_]
            · simp
            · intro y hy
              simp only [List.mem_map] at hy
              obtain ⟨x, hx, rfl⟩ := hy
              rw [hc x hx, hmean]
              ring
          simp only [threeSigmaFlag, hmean, hvar0, hac, decide_eq_true_eq]
          simp

/-- C9 witness: the spec degenerate batch of four identical magnitudes 10
reports zero anomalies. -/
theorem c9_three_sigma_witness :
    (∀ x ∈ anomalyAmounts evts9a, x = (10 : Rat))
  ∧ detect_anomalies evts9a = [] := by
  have h10 : ∀ x ∈ anomalyAmounts evts9a, x = (10 : Rat) := by
    intro x hx
    simp [anomalyAmounts, evts9a, mkPay, parseDec] at hx
    exact hx
  exact ⟨h10, (c9_three_sigma evts9a).2.2 10 h10⟩
